import Mathlib

/-!
Verification development for the TaskHub board/membership/todo data-access
layer (`MemStorage` in the server storage module, types from
`shared/schema.ts`).

The JavaScript `Map<number, V>` is modelled as an insertion-ordered
association list `List (Nat × V)`:
  * `Map.get`       → `mapGet` (first entry with the key);
  * `Map.set`       → `mapSet` (replace in place when the key is present,
                      append otherwise — JS `set` keeps the original
                      insertion position of an existing key);
  * `Map.delete`    → `mapDelete` / `mapContains` (JS `delete` returns
                      whether the key was present);
  * `Map.values()`  → `mapValues` (insertion order).
Timestamps (`new Date()`) are modelled as a `Nat` clock value threaded
into each operation that reads the current time.  JS truthiness of the
`x || default` idiom is modelled exactly: the empty string and the
number 0 are falsy.
-/

namespace TaskHub

def mapGet {α : Type} (l : List (Nat × α)) (k : Nat) : Option α :=
  (l.find? (fun p => p.1 == k)).map (fun p => p.2)

def mapContains {α : Type} (l : List (Nat × α)) (k : Nat) : Bool :=
  (l.find? (fun p => p.1 == k)).isSome

def mapSet {α : Type} (l : List (Nat × α)) (k : Nat) (v : α) : List (Nat × α) :=
  if mapContains l k then
    l.map (fun p => if p.1 == k then (k, v) else p)
  else
    l ++ [(k, v)]

def mapDelete {α : Type} (l : List (Nat × α)) (k : Nat) : List (Nat × α) :=
  l.filter (fun p => ! (p.1 == k))

def mapValues {α : Type} (l : List (Nat × α)) : List α :=
  l.map (fun p => p.2)

/-- JS `s || "default"` on an optional string field: `undefined`, `null`
and `""` are all falsy. -/
def orFalsy (o : Option String) (d : String) : String :=
  match o with
  | some s => if s = "" then d else s
  | none => d

/-- JS `s || null` on an optional string field: the empty string is
coerced to `null`. -/
def orFalsyNull (o : Option String) : Option String :=
  match o with
  | some s => if s = "" then none else some s
  | none => none

/-- JS `n || null` on an optional number field: `0` is falsy and is
coerced to `null`. -/
def orFalsyNatNull (o : Option Nat) : Option Nat :=
  match o with
  | some n => if n = 0 then none else some n
  | none => none

/-- `users` row of `shared/schema.ts`. -/
structure User where
  id : Nat
  username : String
  password : String
  phoneNumber : String
  displayName : Option String
  photoURL : Option String
deriving Repr, DecidableEq

/-- `insertUserSchema` payload. -/
structure InsertUser where
  username : String
  password : String
  phoneNumber : String
  displayName : Option String
  photoURL : Option String
deriving Repr, DecidableEq

/-- `boards` row of `shared/schema.ts`. -/
structure Board where
  id : Nat
  title : String
  description : Option String
  color : String
  createdBy : Nat
  createdAt : Nat
deriving Repr, DecidableEq

/-- `insertBoardSchema` payload. -/
structure InsertBoard where
  title : String
  description : Option String
  color : Option String
  createdBy : Nat
deriving Repr, DecidableEq

/-- `boardMembers` row of `shared/schema.ts`. -/
structure BoardMember where
  id : Nat
  boardId : Nat
  userId : Nat
  role : String
deriving Repr, DecidableEq

/-- `insertBoardMemberSchema` payload. -/
structure InsertBoardMember where
  boardId : Nat
  userId : Nat
  role : Option String
deriving Repr, DecidableEq

/-- `todos` row of `shared/schema.ts`. -/
structure Todo where
  id : Nat
  boardId : Nat
  title : String
  description : Option String
  dueDate : Option Nat
  priority : String
  status : String
  assignedTo : Option Nat
  createdBy : Nat
  createdAt : Nat
  updatedAt : Nat
deriving Repr, DecidableEq

/-- `insertTodoSchema` payload. -/
structure InsertTodo where
  boardId : Nat
  title : String
  description : Option String
  dueDate : Option Nat
  priority : Option String
  status : Option String
  assignedTo : Option Nat
  createdBy : Nat
deriving Repr, DecidableEq

/-- TypeScript `Partial<Board>`: every field of `Board` optionally
present.  A present field overwrites the stored one under the JS object
spread `\x7b ...board, ...updates \x7d`. -/
structure BoardUpdate where
  id : Option Nat := none
  title : Option String := none
  description : Option (Option String) := none
  color : Option String := none
  createdBy : Option Nat := none
  createdAt : Option Nat := none
deriving Repr, DecidableEq

/-- TypeScript `Partial<Todo>`. -/
structure TodoUpdate where
  id : Option Nat := none
  boardId : Option Nat := none
  title : Option String := none
  description : Option (Option String) := none
  dueDate : Option (Option Nat) := none
  priority : Option String := none
  status : Option String := none
  assignedTo : Option (Option Nat) := none
  createdBy : Option Nat := none
  createdAt : Option Nat := none
  updatedAt : Option Nat := none
deriving Repr, DecidableEq

/-- `BoardWithMemberCount` (= board with `todoCount` and `memberCount`).
The board part is an `Option` because `getBoardsByUser` dereferences
`this.boards.get(boardId)!`: on a dangling membership reference the JS
spread of `undefined` produces an object with no board fields. -/
structure BoardWithCounts where
  board : Option Board
  todoCount : Nat
  memberCount : Nat
deriving Repr, DecidableEq

/-- `TodoWithAssignee`: the todo plus the optionally resolved assignee. -/
structure TodoWithAssignee where
  todo : Todo
  assignee : Option User
deriving Repr, DecidableEq

/-- `BoardWithMembers`: the board plus the resolved member accounts
(`users.get(userId)!` may dangle, hence `Option User`). -/
structure BoardWithMembers where
  board : Board
  members : List (Option User)
deriving Repr, DecidableEq

/-- The `MemStorage` state: four JS `Map`s plus the four id counters,
all counters starting at 1 in the constructor. -/
structure MemStorage where
  users : List (Nat × User)
  boards : List (Nat × Board)
  boardMembers : List (Nat × BoardMember)
  todos : List (Nat × Todo)
  currentUserId : Nat
  currentBoardId : Nat
  currentBoardMemberId : Nat
  currentTodoId : Nat
deriving Repr, DecidableEq

namespace MemStorage

/-- The constructor: empty maps, all counters 1. -/
def init : MemStorage :=
  { users := [], boards := [], boardMembers := [], todos := [],
    currentUserId := 1, currentBoardId := 1,
    currentBoardMemberId := 1, currentTodoId := 1 }

/-- `getUser(id)`. -/
def getUser (s : MemStorage) (id : Nat) : Option User :=
  mapGet s.users id

/-- `getUserByUsername(username)`. -/
def getUserByUsername (s : MemStorage) (username : String) : Option User :=
  (mapValues s.users).find? (fun u => u.username == username)

/-- `getUserByPhoneNumber(phoneNumber)`. -/
def getUserByPhoneNumber (s : MemStorage) (phoneNumber : String) : Option User :=
  (mapValues s.users).find? (fun u => u.phoneNumber == phoneNumber)

/-- `createUser(insertUser)`: assigns the next user id and stores the
given fields, with `displayName || null` and `photoURL || null`. -/
def createUser (s : MemStorage) (iu : InsertUser) : User × MemStorage :=
  let id := s.currentUserId
  let u : User :=
    { id := id, username := iu.username, password := iu.password,
      phoneNumber := iu.phoneNumber,
      displayName := orFalsyNull iu.displayName,
      photoURL := orFalsyNull iu.photoURL }
  (u, { s with users := mapSet s.users id u, currentUserId := id + 1 })

/-- Number of todos whose `boardId` matches (used by both board listings). -/
def todoCountOf (s : MemStorage) (boardId : Nat) : Nat :=
  ((mapValues s.todos).filter (fun t => t.boardId == boardId)).length

/-- Number of memberships whose `boardId` matches. -/
def memberCountOf (s : MemStorage) (boardId : Nat) : Nat :=
  ((mapValues s.boardMembers).filter (fun m => m.boardId == boardId)).length

/-- `getBoards()`. -/
def getBoards (s : MemStorage) : List BoardWithCounts :=
  (mapValues s.boards).map (fun b =>
    { board := some b, todoCount := s.todoCountOf b.id,
      memberCount := s.memberCountOf b.id })

/-- JS `Set<number>` built by successive `add` calls: keeps the first
occurrence of each element, in insertion order. -/
def setAdd (seen : List Nat) (x : Nat) : List Nat :=
  if x ∈ seen then seen else seen ++ [x]

/-- Iterating `add` over a list, i.e. `new Set()` filled by `forEach`. -/
def setOfList (l : List Nat) : List Nat :=
  l.foldl setAdd []

/-- `getBoardsByUser(userId)`: board ids created by the user, then board
ids of the user's memberships, deduplicated by a `Set`, each resolved via
`this.boards.get(boardId)!` and decorated with the two counts. -/
def getBoardsByUser (s : MemStorage) (userId : Nat) : List BoardWithCounts :=
  let createdIds :=
    (((mapValues s.boards).filter (fun b => b.createdBy == userId)).map
      (fun b => b.id))
  let memberIds :=
    (((mapValues s.boardMembers).filter (fun m => m.userId == userId)).map
      (fun m => m.boardId))
  (setOfList (createdIds ++ memberIds)).map (fun boardId =>
    { board := mapGet s.boards boardId,
      todoCount := s.todoCountOf boardId,
      memberCount := s.memberCountOf boardId })

/-- `getBoard(id)`. -/
def getBoard (s : MemStorage) (id : Nat) : Option Board :=
  mapGet s.boards id

/-- `getBoardWithMembers(id)`. -/
def getBoardWithMembers (s : MemStorage) (id : Nat) : Option BoardWithMembers :=
  match mapGet s.boards id with
  | none => none
  | some b =>
    let memberIds :=
      ((mapValues s.boardMembers).filter (fun m => m.boardId == id)).map
        (fun m => m.userId)
    some { board := b, members := memberIds.map (fun uid => mapGet s.users uid) }

/-- `getBoardMembers(boardId)`. -/
def getBoardMembers (s : MemStorage) (boardId : Nat) : List BoardMember :=
  (mapValues s.boardMembers).filter (fun m => m.boardId == boardId)

/-- `addBoardMember(insertMember)`: returns the existing membership for
the `(boardId, userId)` pair unchanged when one exists; otherwise assigns
the next member id and stores the new membership with
`role || 'editor'`. -/
def addBoardMember (s : MemStorage) (im : InsertBoardMember) :
    BoardMember × MemStorage :=
  match (mapValues s.boardMembers).find?
      (fun m => m.boardId == im.boardId && m.userId == im.userId) with
  | some existing => (existing, s)
  | none =>
    let id := s.currentBoardMemberId
    let m : BoardMember :=
      { id := id, boardId := im.boardId, userId := im.userId,
        role := orFalsy im.role "editor" }
    (m, { s with boardMembers := mapSet s.boardMembers id m,
                 currentBoardMemberId := id + 1 })

/-- `createBoard(insertBoard)`: assigns the next board id, `createdAt`
is the current time, `color || 'primary'`, `description || null`; then
bootstraps the creator as an admin member through `addBoardMember`. -/
def createBoard (s : MemStorage) (ib : InsertBoard) (now : Nat) :
    Board × MemStorage :=
  let id := s.currentBoardId
  let b : Board :=
    { id := id, title := ib.title,
      description := orFalsyNull ib.description,
      color := orFalsy ib.color "primary",
      createdBy := ib.createdBy, createdAt := now }
  let s1 := { s with boards := mapSet s.boards id b, currentBoardId := id + 1 }
  let s2 := (s1.addBoardMember
    { boardId := id, userId := ib.createdBy, role := some "admin" }).2
  (b, s2)

/-- The JS spread `\x7b ...board, ...updates \x7d` for `Partial<Board>`. -/
def mergeBoard (b : Board) (u : BoardUpdate) : Board :=
  { id := u.id.getD b.id,
    title := u.title.getD b.title,
    description := u.description.getD b.description,
    color := u.color.getD b.color,
    createdBy := u.createdBy.getD b.createdBy,
    createdAt := u.createdAt.getD b.createdAt }

/-- `updateBoard(id, updates)`. -/
def updateBoard (s : MemStorage) (id : Nat) (u : BoardUpdate) :
    Option Board × MemStorage :=
  match mapGet s.boards id with
  | none => (none, s)
  | some b =>
    let b2 := mergeBoard b u
    (some b2, { s with boards := mapSet s.boards id b2 })

/-- `deleteBoard(id)`: `boards.delete(id)` reports presence; on success
every membership and every todo with this `boardId` is deleted before
returning `true`. -/
def deleteBoard (s : MemStorage) (id : Nat) : Bool × MemStorage :=
  if mapContains s.boards id then
    (true,
      { s with boards := mapDelete s.boards id,
               boardMembers :=
                 s.boardMembers.filter (fun p => ! (p.2.boardId == id)),
               todos := s.todos.filter (fun p => ! (p.2.boardId == id)) })
  else
    (false, s)

/-- `removeBoardMember(boardId, userId)`: deletes the first matching
membership entry and reports whether one was found. -/
def removeBoardMember (s : MemStorage) (boardId userId : Nat) :
    Bool × MemStorage :=
  match s.boardMembers.find?
      (fun p => p.2.boardId == boardId && p.2.userId == userId) with
  | some entry =>
    (true, { s with boardMembers := mapDelete s.boardMembers entry.1 })
  | none => (false, s)

/-- `updateBoardMemberRole(boardId, userId, role)`. -/
def updateBoardMemberRole (s : MemStorage) (boardId userId : Nat)
    (role : String) : Option BoardMember × MemStorage :=
  match s.boardMembers.find?
      (fun p => p.2.boardId == boardId && p.2.userId == userId) with
  | some entry =>
    let m2 := { entry.2 with role := role }
    (some m2, { s with boardMembers := mapSet s.boardMembers entry.1 m2 })
  | none => (none, s)

/-- `getTodos(boardId)`: `if (todo.assignedTo)` is JS truthiness, so an
`assignedTo` of 0 attaches no assignee. -/
def getTodos (s : MemStorage) (boardId : Nat) : List TodoWithAssignee :=
  ((mapValues s.todos).filter (fun t => t.boardId == boardId)).map (fun t =>
    match t.assignedTo with
    | some a =>
      if a == 0 then { todo := t, assignee := none }
      else { todo := t, assignee := mapGet s.users a }
    | none => { todo := t, assignee := none })

/-- `getTodo(id)`. -/
def getTodo (s : MemStorage) (id : Nat) : Option Todo :=
  mapGet s.todos id

/-- `createTodo(insertTodo)`: next todo id, `createdAt` and `updatedAt`
both the same current time, `status || 'todo'`, `priority || 'medium'`,
`description || null`, `dueDate || null`, `assignedTo || null`. -/
def createTodo (s : MemStorage) (it : InsertTodo) (now : Nat) :
    Todo × MemStorage :=
  let id := s.currentTodoId
  let t : Todo :=
    { id := id, boardId := it.boardId, title := it.title,
      description := orFalsyNull it.description,
      dueDate := it.dueDate,
      priority := orFalsy it.priority "medium",
      status := orFalsy it.status "todo",
      assignedTo := orFalsyNatNull it.assignedTo,
      createdBy := it.createdBy, createdAt := now, updatedAt := now }
  (t, { s with todos := mapSet s.todos id t, currentTodoId := id + 1 })

/-- The JS spread `\x7b ...todo, ...updates, updatedAt: new Date() \x7d`:
`updatedAt` is overwritten with the current time last, so it wins even
over an `updatedAt` present in the update object. -/
def mergeTodo (t : Todo) (u : TodoUpdate) (now : Nat) : Todo :=
  { id := u.id.getD t.id,
    boardId := u.boardId.getD t.boardId,
    title := u.title.getD t.title,
    description := u.description.getD t.description,
    dueDate := u.dueDate.getD t.dueDate,
    priority := u.priority.getD t.priority,
    status := u.status.getD t.status,
    assignedTo := u.assignedTo.getD t.assignedTo,
    createdBy := u.createdBy.getD t.createdBy,
    createdAt := u.createdAt.getD t.createdAt,
    updatedAt := now }

/-- `updateTodo(id, updates)`. -/
def updateTodo (s : MemStorage) (id : Nat) (u : TodoUpdate) (now : Nat) :
    Option Todo × MemStorage :=
  match mapGet s.todos id with
  | none => (none, s)
  | some t =>
    let t2 := mergeTodo t u now
    (some t2, { s with todos := mapSet s.todos id t2 })

/-- `deleteTodo(id)`. -/
def deleteTodo (s : MemStorage) (id : Nat) : Bool × MemStorage :=
  (mapContains s.todos id, { s with todos := mapDelete s.todos id })

end MemStorage

/-! ### Basic facts about the map model -/

theorem mapGet_eq_none_iff {α : Type} (l : List (Nat × α)) (k : Nat) :
    mapGet l k = none ↔ mapContains l k = false := by
  unfold mapGet mapContains
  cases l.find? (fun p => p.1 == k) <;> simp

theorem mapGet_mapDelete_self {α : Type} (l : List (Nat × α)) (k : Nat) :
    mapGet (mapDelete l k) k = none := by
  unfold mapGet mapDelete
  rw [Option.map_eq_none', List.find?_eq_none]
  intro x hx
  simp only [List.mem_filter] at hx
  simpa using hx.2

/-- Filtering the values of an entry list from which every entry whose
value satisfies `f` was removed yields nothing. -/
theorem filter_mapValues_filter_out {β : Type} (l : List (Nat × β)) (f : β → Bool) :
    (mapValues (l.filter (fun p => ! f p.2))).filter f = [] := by
  rw [List.filter_eq_nil_iff]
  intro a ha
  simp only [mapValues, List.mem_map, List.mem_filter] at ha
  obtain ⟨p, ⟨_, hp⟩, rfl⟩ := ha
  simpa using hp

theorem find?_filter_of_imp {α : Type} (l : List α) (p q : α → Bool)
    (h : ∀ a, p a = true → q a = true) :
    (l.filter q).find? p = l.find? p := by
  induction l with
  | nil => rfl
  | cons a l ih =>
    by_cases hq : q a
    · rw [List.filter_cons_of_pos hq]
      by_cases hp : p a
      · rw [List.find?_cons_of_pos _ hp, List.find?_cons_of_pos _ hp]
      · rw [List.find?_cons_of_neg _ hp, List.find?_cons_of_neg _ hp, ih]
    · have hp : ¬ p a = true := fun hpa => hq (h a hpa)
      rw [List.filter_cons_of_neg (by simpa using hq), ih,
        List.find?_cons_of_neg _ hp]

theorem find?_filter_eq_some {α : Type} {l : List α} {p q : α → Bool} {x : α}
    (hf : l.find? p = some x) (hq : q x = true) :
    (l.filter q).find? p = some x := by
  induction l with
  | nil => simp at hf
  | cons a l ih =>
    by_cases hp : p a
    · rw [List.find?_cons_of_pos _ hp] at hf
      obtain rfl : a = x := by simpa using hf
      rw [List.filter_cons_of_pos hq]
      exact List.find?_cons_of_pos _ hp
    · rw [List.find?_cons_of_neg _ hp] at hf
      by_cases hqa : q a
      · rw [List.filter_cons_of_pos hqa, List.find?_cons_of_neg _ hp]
        exact ih hf
      · rw [List.filter_cons_of_neg (by simpa using hqa)]
        exact ih hf

theorem mapGet_mapDelete_ne {α : Type} (l : List (Nat × α)) (k b : Nat)
    (h : b ≠ k) : mapGet (mapDelete l k) b = mapGet l b := by
  unfold mapGet mapDelete
  rw [find?_filter_of_imp]
  intro a ha
  simp only [beq_iff_eq] at ha
  simp [ha, h]

/-- A lookup that hits a value surviving a value-level filter is
unchanged by the filter. -/
theorem mapGet_filter_value {β : Type} (l : List (Nat × β)) (g : β → Bool)
    (k : Nat) (v : β) (hf : mapGet l k = some v) (hg : g v = true) :
    mapGet (l.filter (fun p => g p.2)) k = some v := by
  unfold mapGet at hf ⊢
  obtain ⟨e, he, hev⟩ := Option.map_eq_some'.mp hf
  rw [find?_filter_eq_some he (by simpa [hev] using hg)]
  simpa using hev

theorem find?_map_replace {α : Type} (l : List (Nat × α)) (k : Nat) (v : α)
    (h : (l.find? (fun p => p.1 == k)).isSome = true) :
    (l.map (fun p => if p.1 == k then (k, v) else p)).find? (fun p => p.1 == k)
      = some (k, v) := by
  induction l with
  | nil => simp at h
  | cons a l ih =>
    by_cases hk : (a.1 == k) = true
    · rw [List.map_cons, if_pos hk]
      exact List.find?_cons_of_pos _ (by simp)
    · rw [List.find?_cons_of_neg _ (by simpa using hk)] at h
      rw [List.map_cons, if_neg hk, List.find?_cons_of_neg _ (by simpa using hk)]
      exact ih h

theorem find?_map_replace_ne {α : Type} (l : List (Nat × α)) (k k' : Nat)
    (v : α) (h : k' ≠ k) :
    (l.map (fun p => if p.1 == k then (k, v) else p)).find?
        (fun p => p.1 == k')
      = l.find? (fun p => p.1 == k') := by
  induction l with
  | nil => rfl
  | cons a l ih =>
    by_cases hk : (a.1 == k) = true
    · have hkk : ¬ ((k, v).1 == k') = true := by
        simp only [beq_iff_eq]
        exact fun he => h he.symm
      have ha : ¬ (a.1 == k') = true := by
        simp only [beq_iff_eq] at hk ⊢
        rw [hk]
        exact fun he => h he.symm
      rw [List.map_cons, if_pos hk,
        @List.find?_cons_of_neg _ (fun p => p.1 == k') (k, v) _ hkk,
        @List.find?_cons_of_neg _ (fun p => p.1 == k') a _ ha, ih]
    · rw [List.map_cons, if_neg hk]
      by_cases ha : (a.1 == k') = true
      · rw [@List.find?_cons_of_pos _ (fun p => p.1 == k') a _ ha,
          @List.find?_cons_of_pos _ (fun p => p.1 == k') a _ ha]
      · rw [@List.find?_cons_of_neg _ (fun p => p.1 == k') a _ ha,
          @List.find?_cons_of_neg _ (fun p => p.1 == k') a _ ha, ih]

theorem mapGet_mapSet_self {α : Type} (l : List (Nat × α)) (k : Nat) (v : α) :
    mapGet (mapSet l k v) k = some v := by
  unfold mapGet mapSet
  by_cases h : mapContains l k
  · rw [if_pos h, find?_map_replace l k v (by simpa [mapContains] using h)]
    rfl
  · rw [if_neg h, List.find?_append]
    have h0 : l.find? (fun p => p.1 == k) = none := by
      have := (mapGet_eq_none_iff l k).mpr (by simpa using h)
      unfold mapGet at this
      exact Option.map_eq_none'.mp this
    rw [h0]
    simp [List.find?]

theorem mapGet_mapSet_ne {α : Type} (l : List (Nat × α)) (k k' : Nat) (v : α)
    (h : k' ≠ k) : mapGet (mapSet l k v) k' = mapGet l k' := by
  unfold mapGet mapSet
  by_cases hc : mapContains l k
  · rw [if_pos hc, find?_map_replace_ne l k k' v h]
  · rw [if_neg hc, List.find?_append]
    have hkk : ¬ ((k, v).1 == k') = true := by
      simp only [beq_iff_eq]
      exact fun he => h he.symm
    have h1 : List.find? (fun p => p.1 == k') [(k, v)] = none := by
      rw [@List.find?_cons_of_neg _ (fun p => p.1 == k') (k, v) _ hkk]
      rfl
    rw [h1, Option.or_none]

/-! ### Shared concrete example state

The spec's §8 scenario: account alice, board "Launch", one todo. -/

def wsUser : User × MemStorage :=
  MemStorage.init.createUser
    { username := "alice", password := "h", phoneNumber := "+15550001",
      displayName := none, photoURL := none }

def wsBoard : Board × MemStorage :=
  wsUser.2.createBoard
    { title := "Launch", description := none, color := none, createdBy := 1 } 10

def wsTodo : Todo × MemStorage :=
  wsBoard.2.createTodo
    { boardId := 1, title := "Write spec", description := none,
      dueDate := none, priority := none, status := none,
      assignedTo := none, createdBy := 1 } 11

def ws : MemStorage := wsTodo.2

/-! ### C1: deleteBoard cascade -/

/-- C1: `deleteBoard(B)` returns false exactly when the board is absent;
on success it returns true and afterwards `getTodos(B)` and the
board-scoped membership enumeration are empty and `getBoard(B)` is
absent. -/
theorem deleteBoard_cascade (s : MemStorage) (B : Nat) :
    ((s.deleteBoard B).1 = false ↔ s.getBoard B = none)
    ∧ (s.getBoard B ≠ none →
        (s.deleteBoard B).1 = true
        ∧ (s.deleteBoard B).2.getTodos B = []
        ∧ (s.deleteBoard B).2.getBoardMembers B = []
        ∧ (s.deleteBoard B).2.getBoard B = none) := by
  by_cases h : mapContains s.boards B
  · refine ⟨?_, fun _ => ⟨?_, ?_, ?_, ?_⟩⟩
    · simp [MemStorage.deleteBoard, h, MemStorage.getBoard, mapGet_eq_none_iff]
    · simp [MemStorage.deleteBoard, h]
    · simp only [MemStorage.deleteBoard, h, if_true]
      unfold MemStorage.getTodos
      rw [filter_mapValues_filter_out]
      rfl
    · simp only [MemStorage.deleteBoard, h, if_true]
      unfold MemStorage.getBoardMembers
      exact filter_mapValues_filter_out s.boardMembers (fun m => m.boardId == B)
    · simp only [MemStorage.deleteBoard, h, if_true]
      exact mapGet_mapDelete_self s.boards B
  · refine ⟨?_, fun hne => ?_⟩
    · simp [MemStorage.deleteBoard, h, MemStorage.getBoard, mapGet_eq_none_iff]
    · exact absurd ((mapGet_eq_none_iff s.boards B).mpr (by simpa using h)) hne

/-- C1 witness: on the concrete scenario state the cascade conclusions
hold for board 1. -/
theorem deleteBoard_cascade_witness :
    (ws.deleteBoard 1).1 = true
    ∧ (ws.deleteBoard 1).2.getTodos 1 = []
    ∧ (ws.deleteBoard 1).2.getBoardMembers 1 = []
    ∧ (ws.deleteBoard 1).2.getBoard 1 = none :=
  (deleteBoard_cascade ws 1).2 (by decide)

/-! ### C10: deleteBoard frame -/

/-- C10: `deleteBoard(B)` leaves the accounts untouched, every board
other than `B` untouched, and every membership and todo whose `boardId`
differs from `B` untouched; when the board is absent the whole state is
unchanged. -/
theorem deleteBoard_frame (s : MemStorage) (B : Nat) :
    (s.deleteBoard B).2.users = s.users
    ∧ (∀ b, b ≠ B → mapGet (s.deleteBoard B).2.boards b = mapGet s.boards b)
    ∧ (∀ k m, mapGet s.boardMembers k = some m → m.boardId ≠ B →
        mapGet (s.deleteBoard B).2.boardMembers k = some m)
    ∧ (∀ k t, mapGet s.todos k = some t → t.boardId ≠ B →
        mapGet (s.deleteBoard B).2.todos k = some t)
    ∧ (s.getBoard B = none → (s.deleteBoard B).2 = s) := by
  by_cases h : mapContains s.boards B
  · refine ⟨?_, ?_, ?_, ?_, ?_⟩
    · simp [MemStorage.deleteBoard, h]
    · intro b hb
      simp only [MemStorage.deleteBoard, h, if_true]
      exact mapGet_mapDelete_ne s.boards B b hb
    · intro k m hm hB
      simp only [MemStorage.deleteBoard, h, if_true]
      exact mapGet_filter_value s.boardMembers
        (fun m => ! (m.boardId == B)) k m hm (by simpa using hB)
    · intro k t ht hB
      simp only [MemStorage.deleteBoard, h, if_true]
      exact mapGet_filter_value s.todos
        (fun t => ! (t.boardId == B)) k t ht (by simpa using hB)
    · intro habs
      rw [MemStorage.getBoard, mapGet_eq_none_iff] at habs
      simp [h] at habs
  · refine ⟨?_, ?_, ?_, ?_, ?_⟩ <;>
      simp [MemStorage.deleteBoard, h] <;> intros <;> assumption

/-- A second board with its own membership and todo, used to watch the
frame of deleting board 1. -/
def wsBoard2 : Board × MemStorage :=
  ws.createBoard
    { title := "Two", description := none, color := none, createdBy := 1 } 12

def wsTodo2 : Todo × MemStorage :=
  wsBoard2.2.createTodo
    { boardId := 2, title := "t2", description := none, dueDate := none,
      priority := none, status := none, assignedTo := none, createdBy := 1 } 13

def ws2 : MemStorage := wsTodo2.2

/-- C10 witness: deleting board 1 keeps the account map, board 2, board
2's membership and board 2's todo intact. -/
theorem deleteBoard_frame_witness :
    (ws2.deleteBoard 1).2.users = ws2.users
    ∧ mapGet (ws2.deleteBoard 1).2.boards 2 = mapGet ws2.boards 2
    ∧ mapGet (ws2.deleteBoard 1).2.boardMembers 2 =
        some { id := 2, boardId := 2, userId := 1, role := "admin" }
    ∧ mapGet (ws2.deleteBoard 1).2.todos 2 =
        some { id := 2, boardId := 2, title := "t2", description := none,
               dueDate := none, priority := "medium", status := "todo",
               assignedTo := none, createdBy := 1, createdAt := 13,
               updatedAt := 13 } :=
  ⟨(deleteBoard_frame ws2 1).1,
   (deleteBoard_frame ws2 1).2.1 2 (by decide),
   (deleteBoard_frame ws2 1).2.2.1 2 _ (by decide) (by decide),
   (deleteBoard_frame ws2 1).2.2.2.1 2 _ (by decide) (by decide)⟩

/-! ### C7: updateBoard merge and frame -/

/-- C7 counterexample: `updateBoard` spreads every field present in the
`Partial<Board>` object over the stored board, so a partial update that
contains `createdBy` does change `createdBy` — the claim that it is left
unchanged for every partial-update object fails.  Board 1 of the
scenario state has `createdBy = 1`; updating with `\x7b createdBy: 99 \x7d`
stores 99. -/
theorem updateBoard_touches_createdBy :
    (mapGet ws.boards 1).map (fun b => b.createdBy) = some 1
    ∧ ((ws.updateBoard 1 { createdBy := some 99 }).1.map
        (fun b => b.createdBy)) = some 99
    ∧ ((ws.updateBoard 1 { createdBy := some 99 }).2.getBoard 1).map
        (fun b => b.createdBy) = some 99 := by
  decide

/-- C7 (amended): `updateBoard` returns absent exactly when the board is
absent; on success it merges exactly the fields present in the partial
update (a present field takes the updated value, an absent field keeps
the stored value), stores and returns the merged board.  `createdAt` and
`createdBy` are unchanged whenever the partial update does not contain
them — which holds for all updates the HTTP layer builds, since it only
ever passes `title`, `description` and `color`. -/
theorem updateBoard_merge (s : MemStorage) (id : Nat) (u : BoardUpdate) :
    ((s.updateBoard id u).1 = none ↔ s.getBoard id = none)
    ∧ (∀ b, s.getBoard id = some b →
        (s.updateBoard id u).1 = some (MemStorage.mergeBoard b u)
        ∧ (s.updateBoard id u).2.getBoard id = some (MemStorage.mergeBoard b u)
        ∧ (u.title = none → (MemStorage.mergeBoard b u).title = b.title)
        ∧ (u.description = none →
            (MemStorage.mergeBoard b u).description = b.description)
        ∧ (u.color = none → (MemStorage.mergeBoard b u).color = b.color)
        ∧ (u.createdAt = none →
            (MemStorage.mergeBoard b u).createdAt = b.createdAt)
        ∧ (u.createdBy = none →
            (MemStorage.mergeBoard b u).createdBy = b.createdBy)
        ∧ (∀ x, u.title = some x → (MemStorage.mergeBoard b u).title = x)
        ∧ (∀ x, u.description = some x →
            (MemStorage.mergeBoard b u).description = x)
        ∧ (∀ x, u.color = some x → (MemStorage.mergeBoard b u).color = x)) := by
  constructor
  · unfold MemStorage.updateBoard MemStorage.getBoard
    cases mapGet s.boards id <;> simp
  · intro b hb
    rw [MemStorage.getBoard] at hb
    refine ⟨?_, ?_, ?_, ?_, ?_, ?_, ?_, ?_, ?_, ?_⟩
    · simp [MemStorage.updateBoard, hb]
    · simp only [MemStorage.updateBoard, hb, MemStorage.getBoard]
      exact mapGet_mapSet_self s.boards id (MemStorage.mergeBoard b u)
    all_goals
      intros
      simp_all [MemStorage.mergeBoard]

/-- C7 witness: updating board 1's title merges the new title, keeps the
description, color, `createdAt` and `createdBy`, and stores the result. -/
theorem updateBoard_merge_witness :
    (ws.updateBoard 1 { title := some "Renamed" }).1 =
      some (MemStorage.mergeBoard
        { id := 1, title := "Launch", description := none,
          color := "primary", createdBy := 1, createdAt := 10 }
        { title := some "Renamed" })
    ∧ (MemStorage.mergeBoard
        { id := 1, title := "Launch", description := none,
          color := "primary", createdBy := 1, createdAt := 10 }
        { title := some "Renamed" }).createdAt = 10
    ∧ (MemStorage.mergeBoard
        { id := 1, title := "Launch", description := none,
          color := "primary", createdBy := 1, createdAt := 10 }
        { title := some "Renamed" }).createdBy = 1
    ∧ (MemStorage.mergeBoard
        { id := 1, title := "Launch", description := none,
          color := "primary", createdBy := 1, createdAt := 10 }
        { title := some "Renamed" }).title = "Renamed" := by
  have h := (updateBoard_merge ws 1 { title := some "Renamed" }).2
    { id := 1, title := "Launch", description := none, color := "primary",
      createdBy := 1, createdAt := 10 } (by decide)
  exact ⟨h.1, h.2.2.2.2.2.1 rfl, h.2.2.2.2.2.2.1 rfl, h.2.2.2.2.2.2.2.1 _ rfl⟩

/-! ### C6: updateTodo always refreshes updatedAt -/

/-- C6: for an existing todo, every `updateTodo` call — whatever the
update object contains, even fields identical to the current values or a
stale `updatedAt` of its own — sets `updatedAt` to the current call
time; since the clock has advanced past the stored `updatedAt`, the
timestamp strictly increases, in the returned todo and in the store. -/
theorem updateTodo_refreshes_updatedAt (s : MemStorage) (id : Nat)
    (u : TodoUpdate) (now : Nat) (t : Todo)
    (ht : s.getTodo id = some t) (hclock : t.updatedAt < now) :
    (s.updateTodo id u now).1 = some (MemStorage.mergeTodo t u now)
    ∧ (MemStorage.mergeTodo t u now).updatedAt = now
    ∧ t.updatedAt < (MemStorage.mergeTodo t u now).updatedAt
    ∧ (s.updateTodo id u now).2.getTodo id =
        some (MemStorage.mergeTodo t u now) := by
  rw [MemStorage.getTodo] at ht
  refine ⟨?_, rfl, hclock, ?_⟩
  · simp [MemStorage.updateTodo, ht]
  · simp only [MemStorage.updateTodo, ht, MemStorage.getTodo]
    exact mapGet_mapSet_self s.todos id (MemStorage.mergeTodo t u now)

/-- The scenario todo as stored in `ws`. -/
def wsT1 : Todo :=
  { id := 1, boardId := 1, title := "Write spec", description := none,
    dueDate := none, priority := "medium", status := "todo",
    assignedTo := none, createdBy := 1, createdAt := 11, updatedAt := 11 }

/-- C6 witness: completing the scenario todo at time 12 bumps
`updatedAt` from 11 to 12. -/
theorem updateTodo_refreshes_updatedAt_witness :
    (ws.updateTodo 1 { status := some "completed" } 12).1 =
      some (MemStorage.mergeTodo wsT1 { status := some "completed" } 12)
    ∧ (MemStorage.mergeTodo wsT1 { status := some "completed" } 12).updatedAt = 12
    ∧ wsT1.updatedAt <
        (MemStorage.mergeTodo wsT1 { status := some "completed" } 12).updatedAt
    ∧ (ws.updateTodo 1 { status := some "completed" } 12).2.getTodo 1 =
        some (MemStorage.mergeTodo wsT1 { status := some "completed" } 12) :=
  updateTodo_refreshes_updatedAt ws 1 { status := some "completed" } 12 wsT1
    (by decide) (by decide)

/-! ### C8: createUser stores what it is given -/

theorem orFalsyNull_ne_empty (o : Option String) : orFalsyNull o ≠ some "" := by
  unfold orFalsyNull
  match o with
  | none => simp
  | some s =>
    by_cases h : s = "" <;> simp [h]

/-- C8: `createUser` assigns the next handle, stores the required fields
exactly as given, defaults the optional display name and avatar to
absent when unset, keeps them exactly when set non-empty, and never
stores either as an empty string; the stored row is retrievable. -/
theorem createUser_spec (s : MemStorage) (iu : InsertUser) :
    (s.createUser iu).1.id = s.currentUserId
    ∧ (s.createUser iu).2.currentUserId = s.currentUserId + 1
    ∧ (s.createUser iu).1.username = iu.username
    ∧ (s.createUser iu).1.password = iu.password
    ∧ (s.createUser iu).1.phoneNumber = iu.phoneNumber
    ∧ (iu.displayName = none → (s.createUser iu).1.displayName = none)
    ∧ (iu.photoURL = none → (s.createUser iu).1.photoURL = none)
    ∧ (s.createUser iu).1.displayName ≠ some ""
    ∧ (s.createUser iu).1.photoURL ≠ some ""
    ∧ (∀ d, iu.displayName = some d → d ≠ "" →
        (s.createUser iu).1.displayName = some d)
    ∧ (∀ d, iu.photoURL = some d → d ≠ "" →
        (s.createUser iu).1.photoURL = some d)
    ∧ (s.createUser iu).2.getUser s.currentUserId = some (s.createUser iu).1 := by
  refine ⟨rfl, rfl, rfl, rfl, rfl, ?_, ?_,
    orFalsyNull_ne_empty iu.displayName, orFalsyNull_ne_empty iu.photoURL,
    ?_, ?_, ?_⟩
  · intro h; simp [MemStorage.createUser, h, orFalsyNull]
  · intro h; simp [MemStorage.createUser, h, orFalsyNull]
  · intro d hd hne; simp [MemStorage.createUser, hd, orFalsyNull, hne]
  · intro d hd hne; simp [MemStorage.createUser, hd, orFalsyNull, hne]
  · show mapGet (mapSet s.users s.currentUserId _) s.currentUserId = _
    exact mapGet_mapSet_self s.users s.currentUserId (s.createUser iu).1

/-- A registration with a display name set and no avatar. -/
def iuA : InsertUser :=
  { username := "alice2", password := "pw", phoneNumber := "+15550002",
    displayName := some "Alice", photoURL := none }

/-- C8 witness: registering `iuA` on a fresh store keeps the non-empty
display name, defaults the avatar to absent, stores the username as
given, and the row is retrievable under the assigned handle. -/
theorem createUser_spec_witness :
    (MemStorage.init.createUser iuA).1.displayName = some "Alice"
    ∧ (MemStorage.init.createUser iuA).1.photoURL = none
    ∧ (MemStorage.init.createUser iuA).1.username = iuA.username
    ∧ (MemStorage.init.createUser iuA).2.getUser
        MemStorage.init.currentUserId = some (MemStorage.init.createUser iuA).1 := by
  obtain ⟨h1, h2, h3, h4, h5, h6, h7, h8, h9, h10, h11, h12⟩ :=
    createUser_spec MemStorage.init iuA
  exact ⟨h10 "Alice" rfl (by decide), h7 rfl, h3, h12⟩

/-! ### C2: membership idempotence -/

/-- C2: starting from a state with no membership for the pair `(B, A)`
(and the member-id counter unused as a key, which holds in every
reachable state), adding a member twice for `(B, A)` with two different
requested roles yields a first membership whose role is the first
requested role, and the second call returns that same membership
unchanged without touching the state; exactly one membership for the
pair exists afterwards. -/
theorem addBoardMember_idempotent (s : MemStorage) (B A : Nat) (r1 r2 : String)
    (hfresh : ∀ m ∈ mapValues s.boardMembers, ¬ (m.boardId = B ∧ m.userId = A))
    (hid : mapContains s.boardMembers s.currentBoardMemberId = false)
    (hr1 : r1 ≠ "") :
    (s.addBoardMember { boardId := B, userId := A, role := some r1 }).1.role = r1
    ∧ (s.addBoardMember { boardId := B, userId := A, role := some r1 }).1.boardId = B
    ∧ (s.addBoardMember { boardId := B, userId := A, role := some r1 }).1.userId = A
    ∧ ((s.addBoardMember { boardId := B, userId := A, role := some r1 }).2.addBoardMember
        { boardId := B, userId := A, role := some r2 }).1
      = (s.addBoardMember { boardId := B, userId := A, role := some r1 }).1
    ∧ ((s.addBoardMember { boardId := B, userId := A, role := some r1 }).2.addBoardMember
        { boardId := B, userId := A, role := some r2 }).2
      = (s.addBoardMember { boardId := B, userId := A, role := some r1 }).2
    ∧ ((mapValues ((s.addBoardMember { boardId := B, userId := A, role := some r1 }).2.addBoardMember
          { boardId := B, userId := A, role := some r2 }).2.boardMembers).filter
        (fun m => m.boardId == B && m.userId == A)).length = 1 := by
  have hfind : (mapValues s.boardMembers).find?
      (fun m => m.boardId == B && m.userId == A) = none := by
    rw [List.find?_eq_none]
    intro x hx hb
    exact hfresh x hx (by simpa using hb)
  have h1 : s.addBoardMember { boardId := B, userId := A, role := some r1 }
      = ({ id := s.currentBoardMemberId, boardId := B, userId := A, role := r1 },
         { s with
             boardMembers := mapSet s.boardMembers s.currentBoardMemberId
               { id := s.currentBoardMemberId, boardId := B, userId := A,
                 role := r1 },
             currentBoardMemberId := s.currentBoardMemberId + 1 }) := by
    unfold MemStorage.addBoardMember
    rw [hfind]
    simp [orFalsy, hr1]
  have happ : mapSet s.boardMembers s.currentBoardMemberId
      { id := s.currentBoardMemberId, boardId := B, userId := A, role := r1 }
      = s.boardMembers ++ [(s.currentBoardMemberId,
          { id := s.currentBoardMemberId, boardId := B, userId := A,
            role := r1 })] := by
    simp [mapSet, hid]
  have hfind2 : (mapValues (s.boardMembers ++ [(s.currentBoardMemberId,
      { id := s.currentBoardMemberId, boardId := B, userId := A,
        role := r1 })])).find?
      (fun m => m.boardId == B && m.userId == A)
      = some { id := s.currentBoardMemberId, boardId := B, userId := A,
               role := r1 } := by
    unfold mapValues at hfind ⊢
    rw [List.map_append, List.find?_append, hfind]
    simp [List.find?]
  have h2 : ({ s with
      boardMembers := mapSet s.boardMembers s.currentBoardMemberId
        { id := s.currentBoardMemberId, boardId := B, userId := A, role := r1 },
      currentBoardMemberId := s.currentBoardMemberId + 1 } :
        MemStorage).addBoardMember { boardId := B, userId := A, role := some r2 }
      = ({ id := s.currentBoardMemberId, boardId := B, userId := A, role := r1 },
         { s with
             boardMembers := mapSet s.boardMembers s.currentBoardMemberId
               { id := s.currentBoardMemberId, boardId := B, userId := A,
                 role := r1 },
             currentBoardMemberId := s.currentBoardMemberId + 1 }) := by
    unfold MemStorage.addBoardMember
    simp only [happ, hfind2]
  rw [h1, h2]
  refine ⟨rfl, rfl, rfl, rfl, rfl, ?_⟩
  have hnil : (mapValues s.boardMembers).filter
      (fun m => m.boardId == B && m.userId == A) = [] := by
    rw [List.filter_eq_nil_iff]
    intro x hx hb
    exact hfresh x hx (by simpa using hb)
  unfold mapValues at hnil ⊢
  simp only [happ, List.map_append, List.filter_append, hnil]
  simp

/-- C2 witness: on the scenario state, adding user 1 to board 2 twice,
first as viewer then as editor, keeps one viewer membership and the
second call is a no-op. -/
theorem addBoardMember_idempotent_witness :
    (ws.addBoardMember { boardId := 2, userId := 1, role := some "viewer" }).1.role
      = "viewer"
    ∧ (ws.addBoardMember { boardId := 2, userId := 1, role := some "viewer" }).1.boardId = 2
    ∧ (ws.addBoardMember { boardId := 2, userId := 1, role := some "viewer" }).1.userId = 1
    ∧ ((ws.addBoardMember { boardId := 2, userId := 1, role := some "viewer" }).2.addBoardMember
        { boardId := 2, userId := 1, role := some "editor" }).1
      = (ws.addBoardMember { boardId := 2, userId := 1, role := some "viewer" }).1
    ∧ ((ws.addBoardMember { boardId := 2, userId := 1, role := some "viewer" }).2.addBoardMember
        { boardId := 2, userId := 1, role := some "editor" }).2
      = (ws.addBoardMember { boardId := 2, userId := 1, role := some "viewer" }).2
    ∧ ((mapValues ((ws.addBoardMember { boardId := 2, userId := 1, role := some "viewer" }).2.addBoardMember
          { boardId := 2, userId := 1, role := some "editor" }).2.boardMembers).filter
        (fun m => m.boardId == 2 && m.userId == 1)).length = 1 :=
  addBoardMember_idempotent ws 2 1 "viewer" "editor"
    (by decide) (by decide) (by decide)

/-! ### C3: createBoard compound write -/

/-- C3: `createBoard` returns a board carrying the next board handle and
the call-time creation timestamp, with color defaulted to `primary` and
description defaulted to absent when unset; it also bootstraps an admin
membership for `data.createdBy` on the new board, and in the post state
the board and that membership are both visible (the board via `getBoard`,
the membership as the sole member of the new board).  Hypotheses: no
existing membership references the not-yet-assigned board handle and the
member-id counter is not yet a key — both hold in every reachable
state. -/
theorem createBoard_spec (s : MemStorage) (ib : InsertBoard) (now : Nat)
    (hfresh : ∀ m ∈ mapValues s.boardMembers, m.boardId ≠ s.currentBoardId)
    (hid : mapContains s.boardMembers s.currentBoardMemberId = false) :
    (s.createBoard ib now).1.id = s.currentBoardId
    ∧ (s.createBoard ib now).1.createdAt = now
    ∧ (s.createBoard ib now).1.createdBy = ib.createdBy
    ∧ (s.createBoard ib now).1.title = ib.title
    ∧ (ib.color = none → (s.createBoard ib now).1.color = "primary")
    ∧ (ib.description = none → (s.createBoard ib now).1.description = none)
    ∧ (s.createBoard ib now).2.getBoard s.currentBoardId
        = some (s.createBoard ib now).1
    ∧ (s.createBoard ib now).2.getBoardMembers s.currentBoardId
        = [{ id := s.currentBoardMemberId, boardId := s.currentBoardId,
             userId := ib.createdBy, role := "admin" }] := by
  have hfind : (mapValues s.boardMembers).find?
      (fun m => m.boardId == s.currentBoardId && m.userId == ib.createdBy)
      = none := by
    rw [List.find?_eq_none]
    intro x hx hb
    exact hfresh x hx (by
      simp only [Bool.and_eq_true, beq_iff_eq] at hb
      exact hb.1)
  have h1 : s.createBoard ib now
      = ({ id := s.currentBoardId, title := ib.title,
           description := orFalsyNull ib.description,
           color := orFalsy ib.color "primary",
           createdBy := ib.createdBy, createdAt := now },
         { s with
             boards := mapSet s.boards s.currentBoardId
               { id := s.currentBoardId, title := ib.title,
                 description := orFalsyNull ib.description,
                 color := orFalsy ib.color "primary",
                 createdBy := ib.createdBy, createdAt := now },
             currentBoardId := s.currentBoardId + 1,
             boardMembers := mapSet s.boardMembers s.currentBoardMemberId
               { id := s.currentBoardMemberId, boardId := s.currentBoardId,
                 userId := ib.createdBy, role := "admin" },
             currentBoardMemberId := s.currentBoardMemberId + 1 }) := by
    unfold MemStorage.createBoard MemStorage.addBoardMember
    simp only []
    rw [hfind]
    simp [orFalsy]
  have happ : mapSet s.boardMembers s.currentBoardMemberId
      { id := s.currentBoardMemberId, boardId := s.currentBoardId,
        userId := ib.createdBy, role := "admin" }
      = s.boardMembers ++ [(s.currentBoardMemberId,
          { id := s.currentBoardMemberId, boardId := s.currentBoardId,
            userId := ib.createdBy, role := "admin" })] := by
    simp [mapSet, hid]
  rw [h1]
  refine ⟨rfl, rfl, rfl, rfl, ?_, ?_, ?_, ?_⟩
  · intro h; simp [orFalsy, h]
  · intro h; simp [orFalsyNull, h]
  · exact mapGet_mapSet_self s.boards s.currentBoardId _
  · show ((mapValues (mapSet s.boardMembers s.currentBoardMemberId _)).filter
      (fun m => m.boardId == s.currentBoardId)) = _
    rw [happ]
    have hnil : (mapValues s.boardMembers).filter
        (fun m => m.boardId == s.currentBoardId) = [] := by
      rw [List.filter_eq_nil_iff]
      intro x hx hb
      exact hfresh x hx (by simpa using hb)
    unfold mapValues at hnil ⊢
    simp only [List.map_append, List.filter_append, hnil]
    simp

/-- The creation payload of board "Two", creator account 1, with color
and description unset. -/
def ibTwo : InsertBoard :=
  { title := "Two", description := none, color := none, createdBy := 1 }

/-- C3 witness: creating board "Two" on the scenario state at time 12
assigns handle 2, timestamp 12, the defaults, and makes the board and
its admin membership for user 1 visible together. -/
theorem createBoard_spec_witness :
    (ws.createBoard ibTwo 12).1.id = ws.currentBoardId
    ∧ (ws.createBoard ibTwo 12).1.createdAt = 12
    ∧ (ws.createBoard ibTwo 12).1.color = "primary"
    ∧ (ws.createBoard ibTwo 12).1.description = none
    ∧ (ws.createBoard ibTwo 12).2.getBoard ws.currentBoardId
      = some (ws.createBoard ibTwo 12).1
    ∧ (ws.createBoard ibTwo 12).2.getBoardMembers ws.currentBoardId
      = [{ id := ws.currentBoardMemberId, boardId := ws.currentBoardId,
           userId := 1, role := "admin" }] := by
  obtain ⟨h1, h2, h3, h4, h5, h6, h7, h8⟩ :=
    createBoard_spec ws ibTwo 12 (by decide) (by decide)
  exact ⟨h1, h2, h5 rfl, h6 rfl, h7, h8⟩

/-! ### C9: totality and not-found sentinels -/

/-- C9: every operation of the layer is a total function in this
embedding, and each operation that can miss reports the miss through its
sentinel — `absent` for lookups and updates, `false` for deletions and
removals — exactly when the referenced entity (or matching membership)
does not exist; no other failure is signalled. -/
theorem total_sentinels (s : MemStorage) (id bid uid : Nat) (u : BoardUpdate)
    (tu : TodoUpdate) (r un pn : String) (now : Nat) :
    (s.getUser id = none ↔ mapContains s.users id = false)
    ∧ (s.getUserByUsername un = none ↔
        ∀ x ∈ mapValues s.users, x.username ≠ un)
    ∧ (s.getUserByPhoneNumber pn = none ↔
        ∀ x ∈ mapValues s.users, x.phoneNumber ≠ pn)
    ∧ (s.getBoard id = none ↔ mapContains s.boards id = false)
    ∧ (s.getBoardWithMembers id = none ↔ mapContains s.boards id = false)
    ∧ ((s.updateBoard id u).1 = none ↔ mapContains s.boards id = false)
    ∧ ((s.deleteBoard id).1 = false ↔ mapContains s.boards id = false)
    ∧ ((s.removeBoardMember bid uid).1 = false ↔
        ∀ m ∈ mapValues s.boardMembers, ¬ (m.boardId = bid ∧ m.userId = uid))
    ∧ ((s.updateBoardMemberRole bid uid r).1 = none ↔
        ∀ m ∈ mapValues s.boardMembers, ¬ (m.boardId = bid ∧ m.userId = uid))
    ∧ (s.getTodo id = none ↔ mapContains s.todos id = false)
    ∧ ((s.updateTodo id tu now).1 = none ↔ mapContains s.todos id = false)
    ∧ ((s.deleteTodo id).1 = false ↔ mapContains s.todos id = false) := by
  refine ⟨mapGet_eq_none_iff s.users id, ?_, ?_, mapGet_eq_none_iff s.boards id,
    ?_, ?_, ?_, ?_, ?_, mapGet_eq_none_iff s.todos id, ?_, ?_⟩
  · rw [MemStorage.getUserByUsername, List.find?_eq_none]
    simp
  · rw [MemStorage.getUserByPhoneNumber, List.find?_eq_none]
    simp
  · rw [← mapGet_eq_none_iff]
    unfold MemStorage.getBoardWithMembers
    cases mapGet s.boards id <;> simp
  · rw [← mapGet_eq_none_iff]
    unfold MemStorage.updateBoard
    cases mapGet s.boards id <;> simp
  · unfold MemStorage.deleteBoard
    by_cases h : mapContains s.boards id <;> simp [h]
  · unfold MemStorage.removeBoardMember
    cases hf : s.boardMembers.find?
        (fun p => p.2.boardId == bid && p.2.userId == uid) with
    | none =>
      rw [List.find?_eq_none] at hf
      refine Iff.intro (fun _ m hm hc => ?_) (fun _ => rfl)
      simp only [mapValues, List.mem_map] at hm
      obtain ⟨p, hp, rfl⟩ := hm
      exact hf p hp (by simp [hc.1, hc.2])
    | some e =>
      constructor
      · intro hfalse
        simp at hfalse
      · intro hall
        exfalso
        have hmem := List.mem_of_find?_eq_some hf
        have hpe := List.find?_some hf
        simp only [Bool.and_eq_true, beq_iff_eq] at hpe
        exact hall e.2 (List.mem_map_of_mem _ hmem) ⟨hpe.1, hpe.2⟩
  · unfold MemStorage.updateBoardMemberRole
    cases hf : s.boardMembers.find?
        (fun p => p.2.boardId == bid && p.2.userId == uid) with
    | none =>
      rw [List.find?_eq_none] at hf
      refine Iff.intro (fun _ m hm hc => ?_) (fun _ => rfl)
      simp only [mapValues, List.mem_map] at hm
      obtain ⟨p, hp, rfl⟩ := hm
      exact hf p hp (by simp [hc.1, hc.2])
    | some e =>
      constructor
      · intro hnone
        simp at hnone
      · intro hall
        exfalso
        have hmem := List.mem_of_find?_eq_some hf
        have hpe := List.find?_some hf
        simp only [Bool.and_eq_true, beq_iff_eq] at hpe
        exact hall e.2 (List.mem_map_of_mem _ hmem) ⟨hpe.1, hpe.2⟩
  · rw [← mapGet_eq_none_iff]
    unfold MemStorage.updateTodo
    cases mapGet s.todos id <;> simp
  · unfold MemStorage.deleteTodo
    by_cases h : mapContains s.todos id <;> simp [h]

/-! ### C4: monotonic, never-reused handles -/

/-- One mutating call against the storage, used to quantify over
arbitrary interleaved operation sequences. -/
inductive Op where
  | opCreateUser : InsertUser → Op
  | opCreateBoard : InsertBoard → Nat → Op
  | opUpdateBoard : Nat → BoardUpdate → Op
  | opDeleteBoard : Nat → Op
  | opAddBoardMember : InsertBoardMember → Op
  | opRemoveBoardMember : Nat → Nat → Op
  | opUpdateBoardMemberRole : Nat → Nat → String → Op
  | opCreateTodo : InsertTodo → Nat → Op
  | opUpdateTodo : Nat → TodoUpdate → Nat → Op
  | opDeleteTodo : Nat → Op
deriving Repr, DecidableEq

/-- The state effect of one call. -/
def step (o : Op) (s : MemStorage) : MemStorage :=
  match o with
  | .opCreateUser iu => (s.createUser iu).2
  | .opCreateBoard ib now => (s.createBoard ib now).2
  | .opUpdateBoard id u => (s.updateBoard id u).2
  | .opDeleteBoard id => (s.deleteBoard id).2
  | .opAddBoardMember im => (s.addBoardMember im).2
  | .opRemoveBoardMember b a => (s.removeBoardMember b a).2
  | .opUpdateBoardMemberRole b a r => (s.updateBoardMemberRole b a r).2
  | .opCreateTodo it now => (s.createTodo it now).2
  | .opUpdateTodo id u now => (s.updateTodo id u now).2
  | .opDeleteTodo id => (s.deleteTodo id).2

/-- Running a sequence of calls left to right. -/
def runOps (l : List Op) (s : MemStorage) : MemStorage :=
  match l with
  | [] => s
  | o :: rest => runOps rest (step o s)

theorem addBoardMember_counters (s : MemStorage) (im : InsertBoardMember) :
    (s.addBoardMember im).2.currentUserId = s.currentUserId
    ∧ (s.addBoardMember im).2.currentBoardId = s.currentBoardId
    ∧ s.currentBoardMemberId ≤ (s.addBoardMember im).2.currentBoardMemberId
    ∧ (s.addBoardMember im).2.currentTodoId = s.currentTodoId := by
  unfold MemStorage.addBoardMember
  cases (mapValues s.boardMembers).find?
      (fun m => m.boardId == im.boardId && m.userId == im.userId) <;> simp

/-- No operation ever decreases any of the four id counters. -/
theorem counters_le_step (o : Op) (s : MemStorage) :
    s.currentUserId ≤ (step o s).currentUserId
    ∧ s.currentBoardId ≤ (step o s).currentBoardId
    ∧ s.currentBoardMemberId ≤ (step o s).currentBoardMemberId
    ∧ s.currentTodoId ≤ (step o s).currentTodoId := by
  cases o with
  | opCreateUser iu =>
    simp [step, MemStorage.createUser]
  | opCreateBoard ib now =>
    simp only [step]
    unfold MemStorage.createBoard
    simp only []
    obtain ⟨h1, h2, h3, h4⟩ := addBoardMember_counters
      { s with
          boards := mapSet s.boards s.currentBoardId
            { id := s.currentBoardId, title := ib.title,
              description := orFalsyNull ib.description,
              color := orFalsy ib.color "primary",
              createdBy := ib.createdBy, createdAt := now },
          currentBoardId := s.currentBoardId + 1 }
      { boardId := s.currentBoardId, userId := ib.createdBy,
        role := some "admin" }
    rw [h1, h2, h4]
    refine ⟨le_refl _, Nat.le_succ _, le_trans (le_refl _) h3, le_refl _⟩
  | opUpdateBoard id u =>
    simp only [step]
    unfold MemStorage.updateBoard
    cases mapGet s.boards id <;> simp
  | opDeleteBoard id =>
    simp only [step]
    unfold MemStorage.deleteBoard
    by_cases h : mapContains s.boards id <;> simp [h]
  | opAddBoardMember im =>
    simp only [step]
    obtain ⟨h1, h2, h3, h4⟩ := addBoardMember_counters s im
    exact ⟨le_of_eq h1.symm, le_of_eq h2.symm, h3, le_of_eq h4.symm⟩
  | opRemoveBoardMember b a =>
    simp only [step]
    unfold MemStorage.removeBoardMember
    cases s.boardMembers.find?
        (fun p => p.2.boardId == b && p.2.userId == a) <;> simp
  | opUpdateBoardMemberRole b a r =>
    simp only [step]
    unfold MemStorage.updateBoardMemberRole
    cases s.boardMembers.find?
        (fun p => p.2.boardId == b && p.2.userId == a) <;> simp
  | opCreateTodo it now =>
    simp [step, MemStorage.createTodo]
  | opUpdateTodo id u now =>
    simp only [step]
    unfold MemStorage.updateTodo
    cases mapGet s.todos id <;> simp
  | opDeleteTodo id =>
    simp [step, MemStorage.deleteTodo]

/-- Counters never decrease across any sequence of operations. -/
theorem counters_le_runOps (l : List Op) (s : MemStorage) :
    s.currentUserId ≤ (runOps l s).currentUserId
    ∧ s.currentBoardId ≤ (runOps l s).currentBoardId
    ∧ s.currentBoardMemberId ≤ (runOps l s).currentBoardMemberId
    ∧ s.currentTodoId ≤ (runOps l s).currentTodoId := by
  induction l generalizing s with
  | nil => exact ⟨le_refl _, le_refl _, le_refl _, le_refl _⟩
  | cons o rest ih =>
    obtain ⟨h1, h2, h3, h4⟩ := counters_le_step o s
    obtain ⟨g1, g2, g3, g4⟩ := ih (step o s)
    exact ⟨le_trans h1 g1, le_trans h2 g2, le_trans h3 g3, le_trans h4 g4⟩

theorem createBoard_id_eq (s : MemStorage) (ib : InsertBoard) (now : Nat) :
    (s.createBoard ib now).1.id = s.currentBoardId := rfl

theorem createBoard_counter (s : MemStorage) (ib : InsertBoard) (now : Nat) :
    s.currentBoardId + 1 ≤ (s.createBoard ib now).2.currentBoardId := by
  unfold MemStorage.createBoard
  simp only []
  rw [(addBoardMember_counters _ _).2.1]

theorem addBoardMember_fresh_id (s : MemStorage) (im : InsertBoardMember)
    (hfind : (mapValues s.boardMembers).find?
      (fun m => m.boardId == im.boardId && m.userId == im.userId) = none) :
    (s.addBoardMember im).1.id = s.currentBoardMemberId
    ∧ (s.addBoardMember im).2.currentBoardMemberId
        = s.currentBoardMemberId + 1 := by
  unfold MemStorage.addBoardMember
  rw [hfind]
  exact ⟨rfl, rfl⟩

/-- C4: for each entity kind, the handle assigned by a create call is
the kind's current counter, and after any sequence of interleaved
operations — including deletions — a later create call of the same kind
assigns a strictly larger handle; for memberships this concerns the
calls that actually insert (no existing membership for the pair), since
a duplicate `addBoardMember` returns the old row instead of assigning.
Strict growth across arbitrary interleaved operations means a handle is
never reassigned, even after its entity is deleted. -/
theorem handles_strictly_increase (s : MemStorage) (l : List Op) :
    (∀ iu iu', (s.createUser iu).1.id <
        ((runOps l (s.createUser iu).2).createUser iu').1.id)
    ∧ (∀ ib now ib' now', (s.createBoard ib now).1.id <
        ((runOps l (s.createBoard ib now).2).createBoard ib' now').1.id)
    ∧ (∀ im im',
        (mapValues s.boardMembers).find?
          (fun m => m.boardId == im.boardId && m.userId == im.userId)
            = none →
        (mapValues (runOps l (s.addBoardMember im).2).boardMembers).find?
          (fun m => m.boardId == im'.boardId && m.userId == im'.userId)
            = none →
        (s.addBoardMember im).1.id <
          ((runOps l (s.addBoardMember im).2).addBoardMember im').1.id)
    ∧ (∀ it now it' now', (s.createTodo it now).1.id <
        ((runOps l (s.createTodo it now).2).createTodo it' now').1.id) := by
  refine ⟨?_, ?_, ?_, ?_⟩
  · intro iu iu'
    have h1 : (s.createUser iu).1.id = s.currentUserId := rfl
    have h2 : (s.createUser iu).2.currentUserId = s.currentUserId + 1 := rfl
    have h3 := (counters_le_runOps l (s.createUser iu).2).1
    have h4 : ((runOps l (s.createUser iu).2).createUser iu').1.id
        = (runOps l (s.createUser iu).2).currentUserId := rfl
    omega
  · intro ib now ib' now'
    have h1 := createBoard_id_eq s ib now
    have h2 := createBoard_counter s ib now
    have h3 := (counters_le_runOps l (s.createBoard ib now).2).2.1
    have h4 := createBoard_id_eq (runOps l (s.createBoard ib now).2) ib' now'
    omega
  · intro im im' hf1 hf2
    obtain ⟨h1, h2⟩ := addBoardMember_fresh_id s im hf1
    have h3 := (counters_le_runOps l (s.addBoardMember im).2).2.2.1
    obtain ⟨h4, h5⟩ :=
      addBoardMember_fresh_id (runOps l (s.addBoardMember im).2) im' hf2
    omega
  · intro it now it' now'
    have h1 : (s.createTodo it now).1.id = s.currentTodoId := rfl
    have h2 : (s.createTodo it now).2.currentTodoId = s.currentTodoId + 1 := rfl
    have h3 := (counters_le_runOps l (s.createTodo it now).2).2.2.2
    have h4 : ((runOps l (s.createTodo it now).2).createTodo it' now').1.id
        = (runOps l (s.createTodo it now).2).currentTodoId := rfl
    omega

/-- A todo payload used by the C4 witness. -/
def itW : InsertTodo :=
  { boardId := 1, title := "w", description := none, dueDate := none,
    priority := none, status := none, assignedTo := none, createdBy := 1 }

/-- C4 witness: with board 1 deleted between the two creations, the
second todo and the second (pair-fresh) membership still get strictly
larger handles than the first — deletion does not free handles. -/
theorem handles_strictly_increase_witness :
    ((ws.createTodo itW 20).1.id <
      ((runOps [Op.opDeleteBoard 1] (ws.createTodo itW 20).2).createTodo
        itW 21).1.id)
    ∧ ((ws.addBoardMember { boardId := 2, userId := 1, role := some "editor" }).1.id <
        ((runOps [Op.opDeleteBoard 1]
            (ws.addBoardMember { boardId := 2, userId := 1, role := some "editor" }).2).addBoardMember
          { boardId := 3, userId := 1, role := some "viewer" }).1.id) :=
  ⟨(handles_strictly_increase ws [Op.opDeleteBoard 1]).2.2.2 itW 20 itW 21,
   (handles_strictly_increase ws [Op.opDeleteBoard 1]).2.2.1
     { boardId := 2, userId := 1, role := some "editor" }
     { boardId := 3, userId := 1, role := some "viewer" }
     (by decide) (by decide)⟩

/-! ### C5: listBoardsForAccount union semantics -/

theorem mem_foldl_setAdd (l : List Nat) (acc : List Nat) (x : Nat) :
    x ∈ l.foldl MemStorage.setAdd acc ↔ x ∈ acc ∨ x ∈ l := by
  induction l generalizing acc with
  | nil => simp
  | cons a t ih =>
    rw [List.foldl_cons, ih]
    unfold MemStorage.setAdd
    by_cases h : a ∈ acc
    · rw [if_pos h]
      constructor
      · rintro (hx | hx)
        · exact Or.inl hx
        · exact Or.inr (List.mem_cons_of_mem a hx)
      · rintro (hx | hx)
        · exact Or.inl hx
        · rcases List.mem_cons.mp hx with rfl | hx
          · exact Or.inl h
          · exact Or.inr hx
    · rw [if_neg h]
      constructor
      · rintro (hx | hx)
        · rcases List.mem_append.mp hx with hx | hx
          · exact Or.inl hx
          · have hxa : x = a := by simpa using hx
            exact Or.inr (hxa ▸ List.mem_cons_self a t)
        · exact Or.inr (List.mem_cons_of_mem a hx)
      · rintro (hx | hx)
        · exact Or.inl (List.mem_append.mpr (Or.inl hx))
        · rcases List.mem_cons.mp hx with rfl | hx
          · exact Or.inl (List.mem_append.mpr (Or.inr (by simp)))
          · exact Or.inr hx

theorem nodup_foldl_setAdd (l : List Nat) (acc : List Nat) (h : acc.Nodup) :
    (l.foldl MemStorage.setAdd acc).Nodup := by
  induction l generalizing acc with
  | nil => exact h
  | cons a t ih =>
    rw [List.foldl_cons]
    apply ih
    unfold MemStorage.setAdd
    by_cases ha : a ∈ acc
    · rwa [if_pos ha]
    · rw [if_neg ha]
      simp [List.nodup_append, h, ha]

theorem mem_setOfList (l : List Nat) (x : Nat) :
    x ∈ MemStorage.setOfList l ↔ x ∈ l := by
  rw [MemStorage.setOfList, mem_foldl_setAdd]
  simp

theorem nodup_setOfList (l : List Nat) : (MemStorage.setOfList l).Nodup :=
  nodup_foldl_setAdd l [] (by simp)

/-- Looking a value up by its own id succeeds when keys agree with ids
and keys are distinct. -/
theorem mapGet_self_of_keyid {α : Type} (f : α → Nat) (l : List (Nat × α))
    (hkeys : ∀ p ∈ l, p.1 = f p.2)
    (hnodup : (l.map (fun p => p.1)).Nodup)
    (v : α) (hv : v ∈ mapValues l) : mapGet l (f v) = some v := by
  induction l with
  | nil => simp [mapValues] at hv
  | cons a t ih =>
    rw [List.map_cons, List.nodup_cons] at hnodup
    unfold mapValues at hv
    rw [List.map_cons] at hv
    rcases List.mem_cons.mp hv with rfl | hv'
    · have ha : a.1 = f a.2 := hkeys a (List.mem_cons_self a t)
      unfold mapGet
      rw [List.find?_cons_of_pos _ (by simp [ha])]
      rfl
    · obtain ⟨q, hq, rfl⟩ := List.mem_map.mp hv'
      have hq1 : q.1 = f q.2 := hkeys q (List.mem_cons_of_mem a hq)
      have hane : ¬ (a.1 == f q.2) = true := by
        simp only [beq_iff_eq]
        intro he
        exact hnodup.1 (List.mem_map.mpr ⟨q, hq, by rw [hq1, he]⟩)
      unfold mapGet
      rw [@List.find?_cons_of_neg _ (fun p => p.1 == f q.2) a t hane]
      exact ih (fun p hp => hkeys p (List.mem_cons_of_mem a hp)) hnodup.2
        (List.mem_map_of_mem _ hq)

/-- A contained key resolves to a value whose id is that key, when keys
agree with ids. -/
theorem mapGet_keyid_of_contains {α : Type} (f : α → Nat) (l : List (Nat × α))
    (hkeys : ∀ p ∈ l, p.1 = f p.2) (bid : Nat)
    (hc : mapContains l bid = true) :
    ∃ v, mapGet l bid = some v ∧ f v = bid ∧ v ∈ mapValues l := by
  unfold mapContains at hc
  obtain ⟨e, he⟩ := Option.isSome_iff_exists.mp hc
  have hmem := List.mem_of_find?_eq_some he
  have hpe := List.find?_some he
  simp only [beq_iff_eq] at hpe
  refine ⟨e.2, ?_, ?_, List.mem_map_of_mem _ hmem⟩
  · unfold mapGet
    rw [he]
    rfl
  · rw [← hkeys e hmem]
    exact hpe

theorem filterMap_eq_self_of {α : Type} (l : List α) (g : α → Option α)
    (h : ∀ x ∈ l, g x = some x) : l.filterMap g = l := by
  induction l with
  | nil => rfl
  | cons a t ih =>
    rw [List.filterMap_cons, h a (List.mem_cons_self a t),
      ih (fun x hx => h x (List.mem_cons_of_mem a hx))]

/-- `getBoardsByUser` with its intermediate `Set` written out. -/
theorem getBoardsByUser_eq (s : MemStorage) (A : Nat) :
    s.getBoardsByUser A = (MemStorage.setOfList
      ((((mapValues s.boards).filter (fun b => b.createdBy == A)).map
          (fun b => b.id))
        ++ (((mapValues s.boardMembers).filter (fun m => m.userId == A)).map
          (fun m => m.boardId)))).map
      (fun boardId =>
        { board := mapGet s.boards boardId,
          todoCount := s.todoCountOf boardId,
          memberCount := s.memberCountOf boardId }) := rfl

/-- C5: `getBoardsByUser(A)` yields each qualifying board exactly once —
the board handles of the result are distinct, every entry resolves to a
stored board that the account created or is a member of, carrying
`todoCount` and `memberCount` for exactly that board's handle, and every
stored board that qualifies (created by A or holding a membership of A)
appears.  Hypotheses: map keys agree with the stored boards' ids and are
distinct, and A's memberships reference existing boards — all invariants
of reachable states. -/
theorem getBoardsByUser_spec (s : MemStorage) (A : Nat)
    (hkeys : ∀ p ∈ s.boards, p.1 = p.2.id)
    (hnodup : (s.boards.map (fun p => p.1)).Nodup)
    (hint : ∀ m ∈ mapValues s.boardMembers, m.userId = A →
      mapContains s.boards m.boardId = true) :
    ((s.getBoardsByUser A).filterMap
        (fun e => e.board.map (fun b => b.id))).Nodup
    ∧ (∀ e ∈ s.getBoardsByUser A, ∃ b, e.board = some b
        ∧ mapGet s.boards b.id = some b
        ∧ (b.createdBy = A ∨ ∃ m ∈ mapValues s.boardMembers,
            m.userId = A ∧ m.boardId = b.id)
        ∧ e.todoCount = s.todoCountOf b.id
        ∧ e.memberCount = s.memberCountOf b.id)
    ∧ (∀ b ∈ mapValues s.boards,
        (b.createdBy = A ∨ ∃ m ∈ mapValues s.boardMembers,
            m.userId = A ∧ m.boardId = b.id) →
        ∃ e ∈ s.getBoardsByUser A, e.board = some b) := by
  have hres : ∀ bid ∈ MemStorage.setOfList
      ((((mapValues s.boards).filter (fun b => b.createdBy == A)).map
          (fun b => b.id))
        ++ (((mapValues s.boardMembers).filter (fun m => m.userId == A)).map
          (fun m => m.boardId))),
      ∃ b, mapGet s.boards bid = some b ∧ b.id = bid := by
    intro bid hbid
    rw [mem_setOfList] at hbid
    rcases List.mem_append.mp hbid with h | h
    · obtain ⟨b, hbmem, rfl⟩ := List.mem_map.mp h
      have hb := List.mem_filter.mp hbmem
      exact ⟨b, mapGet_self_of_keyid (fun b => b.id) s.boards hkeys hnodup
        b hb.1, rfl⟩
    · obtain ⟨m, hmmem, rfl⟩ := List.mem_map.mp h
      have hm := List.mem_filter.mp hmmem
      obtain ⟨b, hget, hbid2, _⟩ := mapGet_keyid_of_contains (fun b => b.id)
        s.boards hkeys m.boardId (hint m hm.1 (by simpa using hm.2))
      exact ⟨b, hget, hbid2⟩
  refine ⟨?_, ?_, ?_⟩
  · rw [getBoardsByUser_eq, List.filterMap_map]
    rw [filterMap_eq_self_of]
    · exact nodup_setOfList _
    · intro bid hbid
      obtain ⟨b, hget, hid⟩ := hres bid hbid
      simp [Function.comp, hget, hid]
  · intro e he
    rw [getBoardsByUser_eq] at he
    obtain ⟨bid, hbid, rfl⟩ := List.mem_map.mp he
    obtain ⟨b, hget, hid⟩ := hres bid hbid
    refine ⟨b, hget, ?_, ?_, ?_, ?_⟩
    · rw [hid]
      exact hget
    · rw [mem_setOfList] at hbid
      rcases List.mem_append.mp hbid with h | h
      · obtain ⟨b', hbmem', hid'⟩ := List.mem_map.mp h
        have hb' := List.mem_filter.mp hbmem'
        have hget' : mapGet s.boards bid = some b' := by
          rw [← hid']
          exact mapGet_self_of_keyid (fun b => b.id) s.boards hkeys hnodup
            b' hb'.1
        rw [hget] at hget'
        obtain rfl := Option.some.inj hget'
        exact Or.inl (by simpa using hb'.2)
      · obtain ⟨m, hmmem, hmbid⟩ := List.mem_map.mp h
        have hm := List.mem_filter.mp hmmem
        exact Or.inr ⟨m, hm.1, by simpa using hm.2, by rw [hmbid, hid]⟩
    · rw [hid]
    · rw [hid]
  · intro b hb hqual
    have hbidmem : b.id ∈ MemStorage.setOfList
        ((((mapValues s.boards).filter (fun b => b.createdBy == A)).map
            (fun b => b.id))
          ++ (((mapValues s.boardMembers).filter (fun m => m.userId == A)).map
            (fun m => m.boardId))) := by
      rw [mem_setOfList]
      rcases hqual with h | ⟨m, hm, hmu, hmb⟩
      · exact List.mem_append.mpr (Or.inl (List.mem_map.mpr
          ⟨b, List.mem_filter.mpr ⟨hb, by simpa using h⟩, rfl⟩))
      · exact List.mem_append.mpr (Or.inr (List.mem_map.mpr
          ⟨m, List.mem_filter.mpr ⟨hm, by simpa using hmu⟩, hmb⟩))
    refine ⟨{ board := mapGet s.boards b.id,
              todoCount := s.todoCountOf b.id,
              memberCount := s.memberCountOf b.id }, ?_, ?_⟩
    · rw [getBoardsByUser_eq]
      exact List.mem_map_of_mem _ hbidmem
    · exact mapGet_self_of_keyid (fun b => b.id) s.boards hkeys hnodup b hb

/-- C5 witness: user 1 created boards 1 and 2 and holds the bootstrap
memberships; the listing enumerates both exactly once with their
counts. -/
theorem getBoardsByUser_spec_witness :
    ((ws2.getBoardsByUser 1).filterMap
        (fun e => e.board.map (fun b => b.id))).Nodup
    ∧ (∀ e ∈ ws2.getBoardsByUser 1, ∃ b, e.board = some b
        ∧ mapGet ws2.boards b.id = some b
        ∧ (b.createdBy = 1 ∨ ∃ m ∈ mapValues ws2.boardMembers,
            m.userId = 1 ∧ m.boardId = b.id)
        ∧ e.todoCount = ws2.todoCountOf b.id
        ∧ e.memberCount = ws2.memberCountOf b.id)
    ∧ (∀ b ∈ mapValues ws2.boards,
        (b.createdBy = 1 ∨ ∃ m ∈ mapValues ws2.boardMembers,
            m.userId = 1 ∧ m.boardId = b.id) →
        ∃ e ∈ ws2.getBoardsByUser 1, e.board = some b) :=
  getBoardsByUser_spec ws2 1 (by decide) (by decide) (by decide)

end TaskHub
